import Mathlib

/-!
Verification of the EntropicRust chaotic-attractor visualizer core.

The Rust source (src/particle.rs, src/system_parameters.rs, src/main_state.rs)
is shallowly embedded below: `f32` arithmetic is modelled over `ℚ`, the
`VecDeque` trail as a `List` (front = oldest), `Point2<f32>` as `ℚ × ℚ`,
`ggez::graphics::Color` as `ℚ × ℚ × ℚ × ℚ`, and the thread-local random
number generator as an explicit stream `ℕ → ℚ` of unit samples, where
`rng.gen_range(lo..hi)` with unit sample `u ∈ [0,1)` yields `lo + u*(hi-lo)`.
-/

namespace EntropicRust

/-- The four attractor variants (`SystemType` in particle.rs). -/
inductive SystemType where
  | Lorenz
  | Rossler
  | Aizawa
  | ChenLee
deriving DecidableEq

/-- Constant `MAX_TRAIL_LENGTH` in particle.rs. -/
def MAX_TRAIL_LENGTH : ℕ := 100

/-- Constant `SCREEN_WIDTH` in main_state.rs. -/
def SCREEN_WIDTH : ℚ := 800

/-- Constant `SCREEN_HEIGHT` in main_state.rs. -/
def SCREEN_HEIGHT : ℚ := 600

/-- The tunable coefficients for all four families (`SystemParameters` in
system_parameters.rs).  Note there is a single `beta` field. -/
structure SystemParameters where
  -- Lorenz
  sigma : ℚ
  rho : ℚ
  beta : ℚ
  -- Rossler
  a : ℚ
  b : ℚ
  c : ℚ
  -- Aizawa
  alpha : ℚ
  gamma : ℚ
  delta : ℚ
  epsilon : ℚ
  -- Chen-Lee
  p : ℚ
  q : ℚ
  r : ℚ
deriving DecidableEq

/-- Constructor `SystemParameters::new` in system_parameters.rs: literature-standard defaults. -/
def SystemParameters.new : SystemParameters :=
  { sigma := 10
    rho := 28
    beta := 8 / 3
    a := 2 / 10
    b := 2 / 10
    c := 57 / 10
    alpha := 95 / 100
    gamma := 6 / 10
    delta := 35 / 10
    epsilon := 25 / 100
    p := 5
    q := -10
    r := -38 / 100 }

/-- Function `get_scale_factor` in system_parameters.rs. -/
def get_scale_factor (system_type : SystemType) : ℚ :=
  match system_type with
  | .Lorenz => 10
  | .Rossler => 30
  | .Aizawa => 100
  | .ChenLee => 30

/-- Sampling `rng.gen_range(lo..hi)` applied to a unit sample `u`: `lo + u * (hi - lo)`.
A valid unit sample satisfies `0 ≤ u < 1`, giving a value in `[lo, hi)`. -/
def genRange (lo hi u : ℚ) : ℚ := lo + u * (hi - lo)

/-- A random stream is valid when every sample is a unit sample in `[0, 1)`. -/
def validRng (rng : ℕ → ℚ) : Prop := ∀ n, 0 ≤ rng n ∧ rng n < 1

/-- Structure `Particle` in particle.rs: 3D state, trail of 2D display points
(front = oldest), RGBA color. -/
structure Particle where
  x : ℚ
  y : ℚ
  z : ℚ
  trail : List (ℚ × ℚ)
  color : ℚ × ℚ × ℚ × ℚ
deriving DecidableEq

/-- Constructor `Particle::new` in particle.rs: empty trail, color channels sampled via
`gen_range(0.5..1.0)` from the unit samples `cr`, `cg`, `cb`, alpha 1. -/
def Particle.new (x y z cr cg cb : ℚ) : Particle :=
  { x := x
    y := y
    z := z
    trail := []
    color := (genRange (1/2) 1 cr, genRange (1/2) 1 cg, genRange (1/2) 1 cb, 1) }

/-- Method `Particle::update` in particle.rs: pop the oldest trail point when the
trail is at capacity, duplicate the pushed point when the trail is empty,
push the new screen point, then overwrite the state. -/
def Particle.update (particle : Particle) (new_x new_y new_z : ℚ)
    (screen_pos : ℚ × ℚ) : Particle :=
  let t0 := if MAX_TRAIL_LENGTH ≤ particle.trail.length ∧ 0 < MAX_TRAIL_LENGTH then
      particle.trail.tail
    else particle.trail
  let t1 := if 0 < MAX_TRAIL_LENGTH then
      (if t0.isEmpty then t0 ++ [screen_pos] else t0) ++ [screen_pos]
    else t0
  { particle with x := new_x, y := new_y, z := new_z, trail := t1 }

/-- Method `Particle::get_screen_pos` in particle.rs. -/
def Particle.get_screen_pos (particle : Particle) (system_type : SystemType) : ℚ × ℚ :=
  let scale_factor := get_scale_factor system_type
  (SCREEN_WIDTH / 2 + particle.x * scale_factor,
   SCREEN_HEIGHT / 2 + particle.y * scale_factor)

/-- Structure `MainState` in main_state.rs. -/
structure MainState where
  particles : List Particle
  system_type : SystemType
  parameters : SystemParameters
  dt : ℚ
  show_ui : Bool
  trail_enabled : Bool
  time_scale : ℚ
  particle_count : ℕ
deriving DecidableEq

/-- The per-variant initial-condition sampling ranges of
`MainState::initialize_particles` (main_state.rs lines 60-65), as
`((x_lo, x_hi), (y_lo, y_hi), (z_lo, z_hi))`. -/
def initRanges (system_type : SystemType) : (ℚ × ℚ) × (ℚ × ℚ) × (ℚ × ℚ) :=
  match system_type with
  | .Lorenz => ((-1, 1), (-1, 1), (15, 25))
  | .Rossler => ((-1, 1), (-1, 1), (-1, 1))
  | .Aizawa => ((-1/10, 1/10), (-1/10, 1/10), (-1/10, 1/10))
  | .ChenLee => ((-1, 1), (-1, 1), (-1, 1))

/-- The fresh particle list built by `MainState::initialize_particles`:
`n` particles, particle `i` consuming unit samples `rng (6*i) .. rng (6*i+5)`
for position (x, y, z) and color (r, g, b) in source order. -/
def initializeParticles (rng : ℕ → ℚ) (system_type : SystemType) (n : ℕ) :
    List Particle :=
  (List.range n).map (fun i =>
    let ranges := initRanges system_type
    Particle.new
      (genRange ranges.1.1 ranges.1.2 (rng (6*i)))
      (genRange ranges.2.1.1 ranges.2.1.2 (rng (6*i+1)))
      (genRange ranges.2.2.1 ranges.2.2.2 (rng (6*i+2)))
      (rng (6*i+3)) (rng (6*i+4)) (rng (6*i+5)))

/-- Method `self.initialize_particles()` as a state transformer: clear the particle
collection and repopulate it for the active variant and count. -/
def reseedWith (rng : ℕ → ℚ) (s : MainState) : MainState :=
  { s with particles := initializeParticles rng s.system_type s.particle_count }

/-- The state literal constructed inside `MainState::new` (main_state.rs
lines 40-49), before `initialize_particles` runs. -/
def baseState : MainState :=
  { particles := []
    system_type := SystemType.Lorenz
    parameters := SystemParameters.new
    dt := 1 / 100
    show_ui := true
    trail_enabled := true
    time_scale := 1
    particle_count := 50 }

/-- Constructor `MainState::new` in main_state.rs. -/
def MainState.new (rng : ℕ → ℚ) : MainState := reseedWith rng baseState

/-- The derivative match of `MainState::update_particles`
(main_state.rs lines 84-109). -/
def derivative (system_type : SystemType) (x y z : ℚ) (ps : SystemParameters) :
    ℚ × ℚ × ℚ :=
  match system_type with
  | .Lorenz =>
      (ps.sigma * (y - x),
       x * (ps.rho - z) - y,
       x * y - ps.beta * z)
  | .Rossler =>
      (-y - z,
       x + ps.a * y,
       ps.b + z * (x - ps.c))
  | .Aizawa =>
      ((z - ps.gamma) * x - ps.delta * y,
       ps.delta * x + (z - ps.gamma) * y,
       ps.alpha + ps.beta * z - z ^ 3 / 3
         - (x * x + y * y) * (1 + ps.epsilon * z) + ps.delta * z * x * x * x)
  | .ChenLee =>
      (ps.p * x - y * z,
       ps.q * y + x * z,
       ps.r * z + x * y / 3)

/-- Modelled from the spec: the closed-form kinetics formulas of spec §4.1,
written from the spec text for comparison against `derivative`. -/
def kineticsSpec (variant : SystemType) (x y z : ℚ) (ps : SystemParameters) :
    ℚ × ℚ × ℚ :=
  match variant with
  | .Lorenz =>
      (ps.sigma * (y - x), x * (ps.rho - z) - y, x * y - ps.beta * z)
  | .Rossler =>
      (-y - z, x + ps.a * y, ps.b + z * (x - ps.c))
  | .Aizawa =>
      ((z - ps.gamma) * x - ps.delta * y,
       ps.delta * x + (z - ps.gamma) * y,
       ps.alpha + ps.beta * z - z ^ 3 / 3
         - (x ^ 2 + y ^ 2) * (1 + ps.epsilon * z) + ps.delta * z * x ^ 3)
  | .ChenLee =>
      (ps.p * x - y * z, ps.q * y + x * z, ps.r * z + x * y / 3)

/-- Method `MainState::update_particles` (main_state.rs lines 76-122): one tick. -/
def updateParticles (s : MainState) : MainState :=
  let dt := s.dt * s.time_scale
  { s with particles := s.particles.map (fun particle =>
      let x := particle.x
      let y := particle.y
      let z := particle.z
      let d := derivative s.system_type x y z s.parameters
      let new_x := x + d.1 * dt
      let new_y := y + d.2.1 * dt
      let new_z := z + d.2.2 * dt
      let scale_factor := get_scale_factor s.system_type
      let screen_pos := (SCREEN_WIDTH / 2 + new_x * scale_factor,
                         SCREEN_HEIGHT / 2 + new_y * scale_factor)
      particle.update new_x new_y new_z screen_pos) }

/-- The keyboard keys handled by `key_down_event` (Escape only quits the
process and is omitted; unhandled keys are identities). -/
inductive Key where
  | Key1 | Key2 | Key3 | Key4
  | Q | A | W | S | E | D | R | F
  | Back | Z | X | C | V | T | H
deriving DecidableEq

/-- Handler `key_down_event` in main_state.rs (lines 292-394), as a state transformer. -/
def stepKey (rng : ℕ → ℚ) (keycode : Key) (s : MainState) : MainState :=
  match keycode with
  | .Key1 =>
      if s.system_type ≠ SystemType.Lorenz then
        reseedWith rng { s with system_type := SystemType.Lorenz }
      else s
  | .Key2 =>
      if s.system_type ≠ SystemType.Rossler then
        reseedWith rng { s with system_type := SystemType.Rossler }
      else s
  | .Key3 =>
      if s.system_type ≠ SystemType.Aizawa then
        reseedWith rng { s with system_type := SystemType.Aizawa }
      else s
  | .Key4 =>
      if s.system_type ≠ SystemType.ChenLee then
        reseedWith rng { s with system_type := SystemType.ChenLee }
      else s
  | .Q =>
      match s.system_type with
      | .Lorenz => { s with parameters := { s.parameters with sigma := s.parameters.sigma + 1/10 } }
      | .Rossler => { s with parameters := { s.parameters with a := s.parameters.a + 1/100 } }
      | .Aizawa => { s with parameters := { s.parameters with alpha := s.parameters.alpha + 1/100 } }
      | .ChenLee => { s with parameters := { s.parameters with p := s.parameters.p + 1/10 } }
  | .A =>
      match s.system_type with
      | .Lorenz => { s with parameters := { s.parameters with sigma := s.parameters.sigma - 1/10 } }
      | .Rossler => { s with parameters := { s.parameters with a := s.parameters.a - 1/100 } }
      | .Aizawa => { s with parameters := { s.parameters with alpha := s.parameters.alpha - 1/100 } }
      | .ChenLee => { s with parameters := { s.parameters with p := s.parameters.p - 1/10 } }
  | .W =>
      match s.system_type with
      | .Lorenz => { s with parameters := { s.parameters with rho := s.parameters.rho + 1/10 } }
      | .Rossler => { s with parameters := { s.parameters with b := s.parameters.b + 1/100 } }
      | .Aizawa => { s with parameters := { s.parameters with gamma := s.parameters.gamma + 1/100 } }
      | .ChenLee => { s with parameters := { s.parameters with q := s.parameters.q + 1/10 } }
  | .S =>
      match s.system_type with
      | .Lorenz => { s with parameters := { s.parameters with rho := s.parameters.rho - 1/10 } }
      | .Rossler => { s with parameters := { s.parameters with b := s.parameters.b - 1/100 } }
      | .Aizawa => { s with parameters := { s.parameters with gamma := s.parameters.gamma - 1/100 } }
      | .ChenLee => { s with parameters := { s.parameters with q := s.parameters.q - 1/10 } }
  | .E =>
      match s.system_type with
      | .Lorenz => { s with parameters := { s.parameters with beta := s.parameters.beta + 1/100 } }
      | .Rossler => { s with parameters := { s.parameters with c := s.parameters.c + 1/100 } }
      | .Aizawa => { s with parameters := { s.parameters with delta := s.parameters.delta + 1/100 } }
      | .ChenLee => { s with parameters := { s.parameters with r := s.parameters.r + 1/100 } }
  | .D =>
      match s.system_type with
      | .Lorenz => { s with parameters := { s.parameters with beta := s.parameters.beta - 1/100 } }
      | .Rossler => { s with parameters := { s.parameters with c := s.parameters.c - 1/100 } }
      | .Aizawa => { s with parameters := { s.parameters with delta := s.parameters.delta - 1/100 } }
      | .ChenLee => { s with parameters := { s.parameters with r := s.parameters.r - 1/100 } }
  | .R =>
      if s.system_type = SystemType.Aizawa then
        { s with parameters := { s.parameters with epsilon := s.parameters.epsilon + 1/100 } }
      else reseedWith rng s
  | .F =>
      if s.system_type = SystemType.Aizawa then
        { s with parameters := { s.parameters with epsilon := s.parameters.epsilon - 1/100 } }
      else reseedWith rng s
  | .Back => reseedWith rng s
  | .Z => { s with time_scale := min (s.time_scale + 1/10) 5 }
  | .X => { s with time_scale := max (s.time_scale - 1/10) (1/10) }
  | .C => reseedWith rng { s with particle_count := min (s.particle_count + 5) 200 }
  | .V =>
      let s1 := { s with particle_count := max (s.particle_count - 5) 5 }
      if s1.particle_count > 0 then reseedWith rng s1 else s1
  | .T => { s with trail_enabled := !s.trail_enabled }
  | .H => { s with show_ui := !s.show_ui }

/-- Folding a key sequence through `stepKey`. -/
def applyKeys (rng : ℕ → ℚ) (ks : List Key) (s : MainState) : MainState :=
  ks.foldl (fun st k => stepKey rng k st) s

/-- Iterating `Particle.update` k times; call number j (0-based) uses the
new state and screen position `inputs j`. -/
def iterUpdate (inputs : ℕ → ℚ × ℚ × ℚ × (ℚ × ℚ)) : ℕ → Particle → Particle
  | 0, particle => particle
  | k + 1, particle =>
      let a := inputs k
      (iterUpdate inputs k particle).update a.1 a.2.1 a.2.2.1 a.2.2.2

/-- The simulation-control clamp invariant of spec §8: time_scale in
[0.1, 5.0] and particle_count in [5, 200]. -/
def ctrlInvariant (s : MainState) : Prop :=
  1/10 ≤ s.time_scale ∧ s.time_scale ≤ 5 ∧
    5 ≤ s.particle_count ∧ s.particle_count ≤ 200

/-- The per-variant initial-condition box of spec §4.4, written from the
spec text (closed intervals). -/
def specBox (variant : SystemType) (particle : Particle) : Prop :=
  match variant with
  | .Lorenz =>
      -1 ≤ particle.x ∧ particle.x ≤ 1 ∧ -1 ≤ particle.y ∧ particle.y ≤ 1 ∧
        15 ≤ particle.z ∧ particle.z ≤ 25
  | .Rossler =>
      -1 ≤ particle.x ∧ particle.x ≤ 1 ∧ -1 ≤ particle.y ∧ particle.y ≤ 1 ∧
        -1 ≤ particle.z ∧ particle.z ≤ 1
  | .Aizawa =>
      -1/10 ≤ particle.x ∧ particle.x ≤ 1/10 ∧
        -1/10 ≤ particle.y ∧ particle.y ≤ 1/10 ∧
        -1/10 ≤ particle.z ∧ particle.z ≤ 1/10
  | .ChenLee =>
      -1 ≤ particle.x ∧ particle.x ≤ 1 ∧ -1 ≤ particle.y ∧ particle.y ≤ 1 ∧
        -1 ≤ particle.z ∧ particle.z ≤ 1

/-- The key switching to a given variant (keys 1-4 of `key_down_event`). -/
def variantKey : SystemType → Key
  | .Lorenz => .Key1
  | .Rossler => .Key2
  | .Aizawa => .Key3
  | .ChenLee => .Key4

/-- A concrete all-zero unit-sample stream, used at concrete inputs. -/
def rng0 : ℕ → ℚ := fun _ => 0

/-- Scenario A of spec §8: Lorenz, default parameters, dt = 0.01,
time_scale = 1, a single particle at (1, 1, 20). -/
def scenarioA : MainState :=
  { baseState with particles := [Particle.new 1 1 20 0 0 0], particle_count := 1 }

/-- A concrete state at the maximum particle count 200 holding a single
particle, used at concrete inputs. -/
def s200 : MainState :=
  { baseState with particles := [Particle.new 1 2 3 0 0 0], particle_count := 200 }

/-- A concrete particle, used at concrete inputs. -/
def pA : Particle := { x := 1, y := 2, z := 3, trail := [], color := (1, 1, 1, 1) }

/-- A concrete particle agreeing with `pA` on x and y but differing in z,
trail and color, used at concrete inputs. -/
def pB : Particle :=
  { x := 1, y := 2, z := 42, trail := [(0, 0)], color := (3/4, 1, 1, 1) }

/-! ## Theorems -/

/-- Claim C1: for every variant, state triple and parameter set, the
derivative computed in the per-particle update equals the closed-form
formulas of spec §4.1 (exact equality over the rationals). -/
theorem C1_kinetics_matches_closed_form (v : SystemType) (x y z : ℚ)
    (ps : SystemParameters) :
    derivative v x y z ps = kineticsSpec v x y z ps := by
  cases v
  · rfl
  · rfl
  · simp only [derivative, kineticsSpec, Prod.mk.injEq]
    exact ⟨trivial, trivial, by ring⟩
  · rfl

/-- Claim C8: with Lorenz, default parameters, dt = 0.01, time_scale = 1, a
single particle at (1, 1, 20): one tick has derivative (0, 7, ≈ −52.33) and
new state within 1e-4 of (1, 1.07, 19.4767). -/
theorem C8_scenarioA_one_tick :
    derivative SystemType.Lorenz 1 1 20 SystemParameters.new = (0, 7, -157/3) ∧
    |(-157/3 : ℚ) - (-5233/100)| ≤ 1/100 ∧
    (updateParticles scenarioA).particles.map (fun particle =>
      (particle.x, particle.y, particle.z)) = [(1, 107/100, 5843/300)] ∧
    |(1 : ℚ) - 1| ≤ 1/10000 ∧ |(107/100 : ℚ) - 107/100| ≤ 1/10000 ∧
    |(5843/300 : ℚ) - 194767/10000| ≤ 1/10000 := by
  refine ⟨?_, ?_, ?_, ?_, ?_, ?_⟩
  · simp only [derivative, SystemParameters.new, Prod.mk.injEq]
    norm_num
  · rw [abs_le]
    constructor <;> norm_num
  · simp only [updateParticles, scenarioA, baseState, Particle.new,
      Particle.update, derivative, SystemParameters.new, genRange,
      get_scale_factor, SCREEN_WIDTH, SCREEN_HEIGHT, MAX_TRAIL_LENGTH,
      List.map_cons, List.map_nil, Prod.mk.injEq]
    norm_num
  · rw [abs_le]
    constructor <;> norm_num
  · rw [abs_le]
    constructor <;> norm_num
  · rw [abs_le]
    constructor <;> norm_num

/-- Claim C9: `get_screen_pos` returns exactly
(800/2 + x·s, 600/2 + y·s) for the variant's fixed scale factor
(Lorenz 10, Rossler 30, Aizawa 100, Chen-Lee 30), and depends only on the
particle's x and y and the variant, not on z, the trail, or the color. -/
theorem C9_get_screen_pos (particle other : Particle) (v : SystemType)
    (hx : particle.x = other.x) (hy : particle.y = other.y) :
    particle.get_screen_pos v =
      (800 / 2 + particle.x * get_scale_factor v,
       600 / 2 + particle.y * get_scale_factor v) ∧
    get_scale_factor SystemType.Lorenz = 10 ∧
    get_scale_factor SystemType.Rossler = 30 ∧
    get_scale_factor SystemType.Aizawa = 100 ∧
    get_scale_factor SystemType.ChenLee = 30 ∧
    particle.get_screen_pos v = other.get_screen_pos v := by
  refine ⟨rfl, rfl, rfl, rfl, rfl, ?_⟩
  simp only [Particle.get_screen_pos, hx, hy]

/-- Witness for C9 at concrete particles that differ in z, trail and color
but share x and y. -/
theorem C9_get_screen_pos_witness :
    pA.get_screen_pos SystemType.Aizawa = pB.get_screen_pos SystemType.Aizawa :=
  (C9_get_screen_pos pA pB SystemType.Aizawa rfl rfl).2.2.2.2.2

/-- Claim C10: one tick (`update_particles`) changes only each particle's
state and trail: particle count, every particle's color, the variant, the
parameters, dt, time_scale, particle_count and both display toggles are
unchanged. -/
theorem C10_tick_frame_effect (s : MainState) :
    (updateParticles s).particles.length = s.particles.length ∧
    (updateParticles s).particles.map Particle.color =
      s.particles.map Particle.color ∧
    (updateParticles s).system_type = s.system_type ∧
    (updateParticles s).parameters = s.parameters ∧
    (updateParticles s).dt = s.dt ∧
    (updateParticles s).time_scale = s.time_scale ∧
    (updateParticles s).particle_count = s.particle_count ∧
    (updateParticles s).show_ui = s.show_ui ∧
    (updateParticles s).trail_enabled = s.trail_enabled := by
  refine ⟨?_, ?_, rfl, rfl, rfl, rfl, rfl, rfl, rfl⟩
  · simp [updateParticles]
  · simp only [updateParticles, List.map_map]
    rfl

/-- One `Particle.update` call from a trail of length at most 100: an empty
trail becomes length 2 (duplicate first insert), otherwise the length becomes
min (length + 1) 100. -/
lemma update_trail_length (particle : Particle) (nx ny nz : ℚ) (sp : ℚ × ℚ)
    (h : particle.trail.length ≤ 100) :
    (particle.update nx ny nz sp).trail.length =
      if particle.trail.length = 0 then 2
      else min (particle.trail.length + 1) 100 := by
  unfold Particle.update MAX_TRAIL_LENGTH
  by_cases h0 : particle.trail.length = 0
  · have he : particle.trail = [] := List.length_eq_zero.mp h0
    simp [he]
  · have hne : particle.trail ≠ [] := fun e => h0 (by rw [e]; rfl)
    by_cases hfull : 100 ≤ particle.trail.length
    · have hlen : particle.trail.length = 100 := le_antisymm h hfull
      have htail : particle.trail.tail.length = 99 := by
        rw [List.length_tail, hlen]
      have hnet : particle.trail.tail ≠ [] := by
        intro e
        rw [e] at htail
        simp at htail
      simp [hfull, List.isEmpty_iff, hnet, htail, h0, hlen]
    · simp [List.isEmpty_iff, hne, hfull, h0]
      omega

/-- Trail length after k iterated updates starting from an empty trail. -/
lemma iter_trail_length (inputs : ℕ → ℚ × ℚ × ℚ × (ℚ × ℚ)) (particle : Particle)
    (hp : particle.trail = []) (k : ℕ) :
    (iterUpdate inputs k particle).trail.length =
      if k = 0 then 0 else min (k + 1) 100 := by
  induction k with
  | zero => simp [iterUpdate, hp]
  | succ k ih =>
      have hle : (iterUpdate inputs k particle).trail.length ≤ 100 := by
        rw [ih]
        split <;> omega
      have hupd := update_trail_length (iterUpdate inputs k particle)
        (inputs k).1 (inputs k).2.1 (inputs k).2.2.1 (inputs k).2.2.2 hle
      simp only [iterUpdate]
      rw [hupd, ih]
      by_cases hk : k = 0
      · simp [hk]
      · have h1 : ¬ (k + 1 = 0) := Nat.succ_ne_zero k
        rw [if_neg hk, if_neg h1]
        have h2 : ¬ (min (k + 1) 100 = 0) := by
          have := le_min (show 1 ≤ k + 1 by omega) (show (1 : ℕ) ≤ 100 by omega)
          omega
        rw [if_neg h2]
        omega

/-- Claim C2: from a freshly constructed particle (empty trail), after k ≥ 1
calls to `Particle.update` the trail length equals min (k+1) 100 (so it never
exceeds 100 and stays pinned at 100 once reached), and the very first update
appends a duplicate of the first screen point. -/
theorem C2_trail_growth (inputs : ℕ → ℚ × ℚ × ℚ × (ℚ × ℚ)) (particle : Particle)
    (k : ℕ) (hp : particle.trail = []) (hk : 1 ≤ k) :
    (iterUpdate inputs k particle).trail.length = min (k + 1) 100 ∧
    (iterUpdate inputs 1 particle).trail =
      [(inputs 0).2.2.2, (inputs 0).2.2.2] := by
  constructor
  · rw [iter_trail_length inputs particle hp k]
    simp [Nat.pos_iff_ne_zero.mp hk]
  · simp [iterUpdate, Particle.update, hp, MAX_TRAIL_LENGTH]

/-- Witness for C2 at k = 102 iterations on a freshly constructed particle:
the length is pinned at 100. -/
theorem C2_trail_growth_witness :
    (iterUpdate (fun _ => (0, 0, 0, (0, 0))) 102 (Particle.new 0 0 0 0 0 0)).trail.length
        = min (102 + 1) 100 ∧
    (iterUpdate (fun _ => (0, 0, 0, (0, 0))) 1 (Particle.new 0 0 0 0 0 0)).trail
        = [(0, 0), (0, 0)] :=
  C2_trail_growth (fun _ => (0, 0, 0, (0, 0))) (Particle.new 0 0 0 0 0 0) 102
    rfl (by norm_num)

/-- Claim C3 fails on the code: `SystemParameters` has a single `beta` field,
read by both the Lorenz and the Aizawa kinetics, so the Lorenz β adjustment
(E key while Lorenz is active) changes the Aizawa derivative.  Concrete
input: default parameters, state (1, 1, 1). -/
theorem C3_counterexample :
    derivative SystemType.Aizawa 1 1 1 (stepKey rng0 Key.E baseState).parameters ≠
      derivative SystemType.Aizawa 1 1 1 baseState.parameters := by
  intro hEq
  have h3 := congrArg (fun t : ℚ × ℚ × ℚ => t.2.2) hEq
  simp only [stepKey, baseState, derivative, SystemParameters.new] at h3
  norm_num at h3

/-- Claim C3 (amended): Aizawa reuses the very same `beta` field as Lorenz,
so the two variants' β uses interfere: the Lorenz β increment (E key while
Lorenz is active, +0.01) shifts the Aizawa dz by z/100 and leaves dx, dy
unchanged. -/
theorem C3_amended_shared_beta (rng : ℕ → ℚ) (s : MainState) (x y z : ℚ)
    (h : s.system_type = SystemType.Lorenz) :
    (stepKey rng Key.E s).parameters.beta = s.parameters.beta + 1/100 ∧
    derivative SystemType.Aizawa x y z (stepKey rng Key.E s).parameters =
      ((derivative SystemType.Aizawa x y z s.parameters).1,
       (derivative SystemType.Aizawa x y z s.parameters).2.1,
       (derivative SystemType.Aizawa x y z s.parameters).2.2 + z / 100) := by
  have e : stepKey rng Key.E s =
      { s with parameters := { s.parameters with beta := s.parameters.beta + 1/100 } } := by
    simp only [stepKey, h]
  rw [e]
  refine ⟨rfl, ?_⟩
  simp only [derivative, Prod.mk.injEq]
  exact ⟨trivial, trivial, by ring⟩

/-- Witness for the amended C3 at the default state and state (1, 2, 3). -/
theorem C3_amended_shared_beta_witness :
    (stepKey rng0 Key.E baseState).parameters.beta =
      baseState.parameters.beta + 1/100 ∧
    derivative SystemType.Aizawa 1 2 3 (stepKey rng0 Key.E baseState).parameters =
      ((derivative SystemType.Aizawa 1 2 3 baseState.parameters).1,
       (derivative SystemType.Aizawa 1 2 3 baseState.parameters).2.1,
       (derivative SystemType.Aizawa 1 2 3 baseState.parameters).2.2 + 3 / 100) :=
  C3_amended_shared_beta rng0 baseState 1 2 3 rfl

/-- Every particle freshly built by `initialize_particles` has an empty trail. -/
lemma initializeParticles_trail (rng : ℕ → ℚ) (v : SystemType) (n : ℕ) :
    ∀ particle ∈ initializeParticles rng v n, particle.trail = [] := by
  intro particle hp
  simp only [initializeParticles, List.mem_map, List.mem_range] at hp
  obtain ⟨i, _, rfl⟩ := hp
  rfl

/-- Lemma: `initialize_particles` builds exactly n particles. -/
lemma initializeParticles_length (rng : ℕ → ℚ) (v : SystemType) (n : ℕ) :
    (initializeParticles rng v n).length = n := by
  simp [initializeParticles]

/-- Claim C4 fails on the code: the C key path reseeds unconditionally.
Concrete input: a state at particle_count 200 holding a single particle;
pressing C leaves the (clamped) count at 200 yet replaces the particle
collection. -/
theorem C4_counterexample :
    (stepKey rng0 Key.C s200).particle_count = s200.particle_count ∧
    (stepKey rng0 Key.C s200).particles ≠ s200.particles := by
  constructor
  · rfl
  · intro hEq
    have hLen := congrArg List.length hEq
    simp only [stepKey, reseedWith, s200, baseState] at hLen
    rw [initializeParticles_length] at hLen
    norm_num at hLen

/-- Claim C4 (amended): the C and V key paths clamp the requested count to
[5, 200] but then call reseed unconditionally — even when the clamped value
equals the current count, the particle collection is replaced by freshly
seeded particles with empty trails rather than left unchanged. -/
theorem C4_amended_always_reseeds (rng : ℕ → ℚ) (s : MainState) :
    (stepKey rng Key.C s).particle_count = min (s.particle_count + 5) 200 ∧
    (stepKey rng Key.C s).particles =
      initializeParticles rng s.system_type (min (s.particle_count + 5) 200) ∧
    (stepKey rng Key.C s).particles.length = min (s.particle_count + 5) 200 ∧
    (∀ particle ∈ (stepKey rng Key.C s).particles, particle.trail = []) ∧
    (stepKey rng Key.V s).particle_count = max (s.particle_count - 5) 5 ∧
    (stepKey rng Key.V s).particles =
      initializeParticles rng s.system_type (max (s.particle_count - 5) 5) ∧
    (stepKey rng Key.V s).particles.length = max (s.particle_count - 5) 5 ∧
    (∀ particle ∈ (stepKey rng Key.V s).particles, particle.trail = []) := by
  have hv : 0 < max (s.particle_count - 5) 5 :=
    lt_of_lt_of_le (by norm_num) (le_max_right _ _)
  have eV : stepKey rng Key.V s =
      reseedWith rng { s with particle_count := max (s.particle_count - 5) 5 } := by
    simp only [stepKey]
    rw [if_pos hv]
  refine ⟨rfl, rfl, ?_, ?_, ?_, ?_, ?_, ?_⟩
  · exact initializeParticles_length rng s.system_type _
  · exact initializeParticles_trail rng s.system_type _
  · rw [eV]
    rfl
  · rw [eV]
    rfl
  · rw [eV]
    exact initializeParticles_length rng s.system_type _
  · rw [eV]
    exact initializeParticles_trail rng s.system_type _

/-- Claim C5: pressing the key of the already-active variant is a no-op (the
whole state, particles, trails and colors included, is unchanged and no
reseed occurs); pressing the key of a different variant sets that variant
and reseeds. -/
theorem C5_switch_variant (rng : ℕ → ℚ) (v : SystemType) (s : MainState) :
    (s.system_type = v → stepKey rng (variantKey v) s = s) ∧
    (s.system_type ≠ v →
      stepKey rng (variantKey v) s = reseedWith rng { s with system_type := v }) := by
  constructor
  · intro h
    cases v
    all_goals simp [stepKey, variantKey, h]
  · intro h
    cases v
    all_goals simp [stepKey, variantKey, h]

/-- Witness for C5: pressing 1 on a Lorenz state changes nothing; pressing 2
on the same state switches to Rossler and reseeds. -/
theorem C5_switch_variant_witness :
    stepKey rng0 (variantKey SystemType.Lorenz) s200 = s200 ∧
    stepKey rng0 (variantKey SystemType.Rossler) s200 =
      reseedWith rng0 { s200 with system_type := SystemType.Rossler } :=
  ⟨(C5_switch_variant rng0 SystemType.Lorenz s200).1 rfl,
   (C5_switch_variant rng0 SystemType.Rossler s200).2 (by decide)⟩

/-- Each of the Z, X, C, V keys preserves the control clamp invariant. -/
lemma ctrlInvariant_step (rng : ℕ → ℚ) (k : Key) (s : MainState)
    (hk : k = Key.Z ∨ k = Key.X ∨ k = Key.C ∨ k = Key.V)
    (h : ctrlInvariant s) : ctrlInvariant (stepKey rng k s) := by
  obtain ⟨h1, h2, h3, h4⟩ := h
  rcases hk with rfl | rfl | rfl | rfl
  · exact ⟨le_min (by linarith) (by norm_num), min_le_right _ _, h3, h4⟩
  · exact ⟨le_max_right _ _, max_le (by linarith) (by norm_num), h3, h4⟩
  · exact ⟨h1, h2, le_min (by omega) (by norm_num), min_le_right _ _⟩
  · have hv : 0 < max (s.particle_count - 5) 5 :=
      lt_of_lt_of_le (by norm_num) (le_max_right _ _)
    have eV : stepKey rng Key.V s =
        reseedWith rng { s with particle_count := max (s.particle_count - 5) 5 } := by
      simp only [stepKey]
      rw [if_pos hv]
    rw [eV]
    exact ⟨h1, h2, le_max_right _ _, max_le (by omega) (by norm_num)⟩

/-- Claim C6: starting from the defaults (time_scale 1, particle_count 50),
every sequence of Z/X/C/V key events keeps time_scale within [0.1, 5] and
particle_count within [5, 200]. -/
theorem C6_clamp_invariant (rng rng2 : ℕ → ℚ) (ks : List Key)
    (hks : ∀ k ∈ ks, k = Key.Z ∨ k = Key.X ∨ k = Key.C ∨ k = Key.V) :
    ctrlInvariant (applyKeys rng2 ks (MainState.new rng)) := by
  have h0 : ctrlInvariant (MainState.new rng) := by
    refine ⟨?_, ?_, ?_, ?_⟩ <;> norm_num [MainState.new, reseedWith, baseState]
  have main : ∀ t : List Key, ∀ st : MainState,
      (∀ k ∈ t, k = Key.Z ∨ k = Key.X ∨ k = Key.C ∨ k = Key.V) →
      ctrlInvariant st → ctrlInvariant (applyKeys rng2 t st) := by
    intro t
    induction t with
    | nil => intro st _ hst; exact hst
    | cons k rest ih =>
        intro st hall hst
        exact ih (stepKey rng2 k st)
          (fun k2 hk2 => hall k2 (List.mem_cons_of_mem _ hk2))
          (ctrlInvariant_step rng2 k st (hall k (List.mem_cons_self _ _)) hst)
  exact main ks (MainState.new rng) hks h0

/-- Witness for C6 on the concrete key sequence Z, C, X. -/
theorem C6_clamp_invariant_witness :
    ctrlInvariant (applyKeys rng0 [Key.Z, Key.C, Key.X] (MainState.new rng0)) :=
  C6_clamp_invariant rng0 rng0 [Key.Z, Key.C, Key.X] (by decide)

/-- A `gen_range lo hi` draw from a valid unit sample lies in [lo, hi]. -/
lemma genRange_bounds (lo hi u : ℚ) (hlohi : lo ≤ hi) (h0 : 0 ≤ u)
    (h1 : u < 1) : lo ≤ genRange lo hi u ∧ genRange lo hi u ≤ hi := by
  unfold genRange
  constructor
  · nlinarith
  · nlinarith

/-- Claim C7: for every prior particle collection, active variant and count,
reseeding discards the old particles and produces exactly particle_count new
ones, each inside the active variant's initial-condition box and with an
empty trail. -/
theorem C7_reseed_box (rng : ℕ → ℚ) (s : MainState) (h : validRng rng) :
    (reseedWith rng s).particles.length = s.particle_count ∧
    ∀ particle ∈ (reseedWith rng s).particles,
      specBox s.system_type particle ∧ particle.trail = [] := by
  constructor
  · exact initializeParticles_length rng s.system_type s.particle_count
  · intro particle hp
    simp only [reseedWith] at hp
    refine ⟨?_, initializeParticles_trail rng s.system_type s.particle_count particle hp⟩
    simp only [initializeParticles, List.mem_map, List.mem_range] at hp
    obtain ⟨i, _, rfl⟩ := hp
    obtain ⟨hx0, hx1⟩ := h (6*i)
    obtain ⟨hy0, hy1⟩ := h (6*i+1)
    obtain ⟨hz0, hz1⟩ := h (6*i+2)
    cases hv : s.system_type
    · exact ⟨(genRange_bounds (-1) 1 _ (by norm_num) hx0 hx1).1,
        (genRange_bounds (-1) 1 _ (by norm_num) hx0 hx1).2,
        (genRange_bounds (-1) 1 _ (by norm_num) hy0 hy1).1,
        (genRange_bounds (-1) 1 _ (by norm_num) hy0 hy1).2,
        (genRange_bounds 15 25 _ (by norm_num) hz0 hz1).1,
        (genRange_bounds 15 25 _ (by norm_num) hz0 hz1).2⟩
    · exact ⟨(genRange_bounds (-1) 1 _ (by norm_num) hx0 hx1).1,
        (genRange_bounds (-1) 1 _ (by norm_num) hx0 hx1).2,
        (genRange_bounds (-1) 1 _ (by norm_num) hy0 hy1).1,
        (genRange_bounds (-1) 1 _ (by norm_num) hy0 hy1).2,
        (genRange_bounds (-1) 1 _ (by norm_num) hz0 hz1).1,
        (genRange_bounds (-1) 1 _ (by norm_num) hz0 hz1).2⟩
    · exact ⟨(genRange_bounds (-1/10) (1/10) _ (by norm_num) hx0 hx1).1,
        (genRange_bounds (-1/10) (1/10) _ (by norm_num) hx0 hx1).2,
        (genRange_bounds (-1/10) (1/10) _ (by norm_num) hy0 hy1).1,
        (genRange_bounds (-1/10) (1/10) _ (by norm_num) hy0 hy1).2,
        (genRange_bounds (-1/10) (1/10) _ (by norm_num) hz0 hz1).1,
        (genRange_bounds (-1/10) (1/10) _ (by norm_num) hz0 hz1).2⟩
    · exact ⟨(genRange_bounds (-1) 1 _ (by norm_num) hx0 hx1).1,
        (genRange_bounds (-1) 1 _ (by norm_num) hx0 hx1).2,
        (genRange_bounds (-1) 1 _ (by norm_num) hy0 hy1).1,
        (genRange_bounds (-1) 1 _ (by norm_num) hy0 hy1).2,
        (genRange_bounds (-1) 1 _ (by norm_num) hz0 hz1).1,
        (genRange_bounds (-1) 1 _ (by norm_num) hz0 hz1).2⟩

/-- Witness for C7: reseeding a concrete state with the all-zero valid
stream produces particles at the low corner of the box with empty trails. -/
theorem C7_reseed_box_witness :
    (reseedWith rng0 s200).particles.length = s200.particle_count ∧
    ∀ particle ∈ (reseedWith rng0 s200).particles,
      specBox s200.system_type particle ∧ particle.trail = [] :=
  C7_reseed_box rng0 s200 (fun _ => ⟨le_refl 0, by norm_num [rng0]⟩)

end EntropicRust
